import Mathlib

/-!
Verification development for the Wplace-BlueMarble userscript.

The JavaScript sources are embedded shallowly: JS strings are modelled as
`List Char`, JS numbers occurring here are non-negative integers modelled as
`Nat`, bitmaps are lists of rows of RGBA pixels, and the stateful message
handlers are modelled as explicit state-passing functions.  Components that
live in files not present in the source tree (templateManager.js, utils.js)
are modelled from the specification; each such definition carries a doc
comment starting with "Modelled from the spec:".
-/

/-! ## JS string primitives over `List Char` -/

/-- Models JS `String.prototype.startsWith` on char lists. -/
def startsWithL : List Char → List Char → Bool
  | _, [] => true
  | [], _ :: _ => false
  | c :: cs, d :: ds => c == d && startsWithL cs ds

/-- Models JS `String.prototype.includes` on char lists. -/
def includesL (hay nd : List Char) : Bool :=
  match hay with
  | [] => startsWithL [] nd
  | c :: cs => startsWithL (c :: cs) nd || includesL cs nd

/-- Models JS `String.prototype.split(sep)` for a one-character separator. -/
def splitOnL (sep : Char) : List Char → List (List Char)
  | [] => [[]]
  | c :: cs =>
    match splitOnL sep cs with
    | [] => []
    | s :: rest => if c == sep then [] :: s :: rest else (c :: s) :: rest

/-- Models JS `String.prototype.replace(nd, '')`, which removes the first
occurrence of the literal pattern `nd`. -/
def replaceFirstL (s nd : List Char) : List Char :=
  match s with
  | [] => []
  | c :: cs =>
    if startsWithL (c :: cs) nd then (c :: cs).drop nd.length
    else c :: replaceFirstL cs nd

/-- Decimal value of a digit character, as JS `parseInt` reads it. -/
def digitVal (c : Char) : Nat := c.toNat - 48

/-- Value of a list of decimal digit characters. -/
def digitsVal (ds : List Char) : Nat :=
  ds.foldl (fun a c => a * 10 + digitVal c) 0

/-- Fuel-driven digit accumulator behind `natToDigits`; the fuel always
exceeds the number, so it never runs out. -/
def natToDigitsAux : Nat → Nat → List Char → List Char
  | 0, _, acc => acc
  | fuel + 1, n, acc =>
    if n < 10 then Nat.digitChar n :: acc
    else natToDigitsAux fuel (n / 10) (Nat.digitChar (n % 10) :: acc)

/-- Decimal digit string of a natural number, as JS `String(n)` and
`Number.prototype.toString` produce it. -/
def natToDigits (n : Nat) : List Char := natToDigitsAux (n + 1) n []

/-- Models JS `parseInt` on the strings appearing in this development: reads
the leading run of decimal digits, `none` when there is none (NaN). -/
def parseIntL (s : List Char) : Option Nat :=
  match s.takeWhile (fun c => c.isDigit) with
  | [] => none
  | ds => some (digitsVal ds)

/-- Models `String(n).padStart(w, '0')` from the chunk-key construction. -/
def padStart0 (w n : Nat) : List Char :=
  List.replicate (w - (natToDigits n).length) '0' ++ natToDigits n

/-! ## Basic lemmas about the string primitives -/

theorem startsWithL_append (xs ys : List Char) : startsWithL (xs ++ ys) xs = true := by
  induction xs with
  | nil => cases ys <;> rfl
  | cons c cs ih => simp [startsWithL, ih]

theorem splitOnL_ne_nil (sep : Char) (l : List Char) : splitOnL sep l ≠ [] := by
  induction l with
  | nil => simp [splitOnL]
  | cons c cs ih =>
    cases h : splitOnL sep cs with
    | nil => exact absurd h ih
    | cons s rest =>
      simp only [splitOnL, h]
      split <;> simp

theorem splitOnL_append (sep : Char) (xs ys : List Char) :
    splitOnL sep (xs ++ sep :: ys) = splitOnL sep xs ++ splitOnL sep ys := by
  induction xs with
  | nil =>
    cases h : splitOnL sep ys with
    | nil => exact absurd h (splitOnL_ne_nil sep ys)
    | cons s rest => simp [splitOnL, h]
  | cons c cs ih =>
    cases h : splitOnL sep cs with
    | nil => exact absurd h (splitOnL_ne_nil sep cs)
    | cons s rest =>
      have hc : splitOnL sep (cs ++ sep :: ys) = s :: (rest ++ splitOnL sep ys) := by
        rw [ih, h]; simp
      simp only [List.cons_append, splitOnL, List.append_eq, hc, h]
      split <;> simp

theorem splitOnL_of_not_mem {sep : Char} {l : List Char} (h : sep ∉ l) :
    splitOnL sep l = [l] := by
  induction l with
  | nil => rfl
  | cons c cs ih =>
    simp only [List.mem_cons, not_or] at h
    simp only [splitOnL, ih h.2]
    have hc : (c == sep) = false := by
      simp only [beq_eq_false_iff_ne]
      exact fun hcc => h.1 hcc.symm
    simp [hc]

theorem takeWhileL_eq_self {p : Char → Bool} {l : List Char}
    (h : ∀ c ∈ l, p c = true) : l.takeWhile p = l := by
  induction l with
  | nil => rfl
  | cons c cs ih =>
    have hc := h c (by simp)
    simp only [List.takeWhile_cons, hc]
    simp [ih fun d hd => h d (by simp [hd])]

/-! ## Decimal round-trip lemmas -/

theorem digitChar_isDigit {m : Nat} (h : m < 10) : (Nat.digitChar m).isDigit = true := by
  interval_cases m <;> decide

theorem digitChar_val {m : Nat} (h : m < 10) : digitVal (Nat.digitChar m) = m := by
  interval_cases m <;> decide

theorem natToDigitsAux_acc (fuel n : Nat) (acc : List Char) :
    natToDigitsAux fuel n acc = natToDigitsAux fuel n [] ++ acc := by
  induction fuel generalizing n acc with
  | zero => simp [natToDigitsAux]
  | succ fuel ih =>
    simp only [natToDigitsAux]
    split
    · simp
    · rw [ih, ih (n / 10) [Nat.digitChar (n % 10)]]
      simp

theorem natToDigitsAux_fuel_irrel (n : Nat) :
    ∀ fuel₁ fuel₂, n < fuel₁ → n < fuel₂ →
      natToDigitsAux fuel₁ n [] = natToDigitsAux fuel₂ n [] := by
  induction n using Nat.strong_induction_on with
  | _ n ih =>
    intro fuel₁ fuel₂ h₁ h₂
    cases fuel₁ with
    | zero => omega
    | succ f₁ =>
      cases fuel₂ with
      | zero => omega
      | succ f₂ =>
        simp only [natToDigitsAux]
        split
        · rfl
        · rw [natToDigitsAux_acc f₁, natToDigitsAux_acc f₂,
            ih (n / 10) (Nat.div_lt_self (by omega) (by omega)) f₁ f₂ (by omega) (by omega)]

theorem natToDigits_unfold (n : Nat) :
    natToDigits n =
      if n < 10 then [Nat.digitChar n]
      else natToDigits (n / 10) ++ [Nat.digitChar (n % 10)] := by
  unfold natToDigits
  simp only [natToDigitsAux]
  split
  · rfl
  · rw [natToDigitsAux_acc,
      natToDigitsAux_fuel_irrel (n / 10) n (n / 10 + 1)
        (by omega) (Nat.lt_succ_self _)]
    simp only [natToDigits, natToDigitsAux]

theorem natToDigits_all_digits (n : Nat) : ∀ c ∈ natToDigits n, c.isDigit = true := by
  induction n using Nat.strong_induction_on with
  | _ n ih =>
    rw [natToDigits_unfold]
    split
    · intro c hc
      simp only [List.mem_singleton] at hc
      subst hc
      exact digitChar_isDigit (by omega)
    · intro c hc
      rcases List.mem_append.mp hc with h1 | h2
      · exact ih (n / 10) (Nat.div_lt_self (by omega) (by omega)) c h1
      · simp only [List.mem_singleton] at h2
        subst h2
        exact digitChar_isDigit (Nat.mod_lt _ (by omega))

theorem natToDigits_ne_nil (n : Nat) : natToDigits n ≠ [] := by
  rw [natToDigits_unfold]
  split <;> simp

theorem digitsVal_append_singleton (ds : List Char) (c : Char) :
    digitsVal (ds ++ [c]) = digitsVal ds * 10 + digitVal c := by
  simp [digitsVal, List.foldl_append]

theorem digitsVal_natToDigits (n : Nat) : digitsVal (natToDigits n) = n := by
  induction n using Nat.strong_induction_on with
  | _ n ih =>
    rw [natToDigits_unfold]
    split
    · simp only [digitsVal, List.foldl_cons, List.foldl_nil]
      rw [Nat.zero_mul, Nat.zero_add]
      exact digitChar_val (by omega)
    · rw [digitsVal_append_singleton,
        ih (n / 10) (Nat.div_lt_self (by omega) (by omega)),
        digitChar_val (Nat.mod_lt _ (by omega))]
      omega

theorem digitsVal_replicate_zero_append (k : Nat) (ds : List Char) :
    digitsVal (List.replicate k '0' ++ ds) = digitsVal ds := by
  induction k with
  | zero => rfl
  | succ k ih =>
    simp only [List.replicate_succ, List.cons_append]
    simpa [digitsVal, digitVal] using ih

theorem parseIntL_of_all_digits {ds : List Char} (hne : ds ≠ [])
    (h : ∀ c ∈ ds, c.isDigit = true) : parseIntL ds = some (digitsVal ds) := by
  unfold parseIntL
  rw [takeWhileL_eq_self h]
  cases ds with
  | nil => exact absurd rfl hne
  | cons c cs => rfl

theorem parseIntL_natToDigits (n : Nat) : parseIntL (natToDigits n) = some n := by
  rw [parseIntL_of_all_digits (natToDigits_ne_nil n) (natToDigits_all_digits n),
    digitsVal_natToDigits]

theorem padStart0_all_digits (w n : Nat) : ∀ c ∈ padStart0 w n, c.isDigit = true := by
  intro c hc
  rcases List.mem_append.mp hc with h1 | h2
  · rw [List.eq_of_mem_replicate h1]; decide
  · exact natToDigits_all_digits n c h2

theorem padStart0_ne_nil (w n : Nat) : padStart0 w n ≠ [] := by
  unfold padStart0
  intro h
  exact natToDigits_ne_nil n (List.append_eq_nil.mp h).2

theorem parseIntL_padStart0 (w n : Nat) : parseIntL (padStart0 w n) = some n := by
  rw [parseIntL_of_all_digits (padStart0_ne_nil w n) (padStart0_all_digits w n)]
  unfold padStart0
  rw [digitsVal_replicate_zero_append, digitsVal_natToDigits]

theorem not_mem_of_all_digits {sep : Char} {ds : List Char}
    (hsep : sep.isDigit = false) (h : ∀ c ∈ ds, c.isDigit = true) : sep ∉ ds := by
  intro hmem
  rw [h sep hmem] at hsep
  simp at hsep

/-! ## Coordinate translation (src/unnamed/part_002, bm-button-save-area onclick)

The save-area handler flattens tile/pixel coordinates to world pixels with
`gx1 = tx1 * tileSize + px1` and converts back with
`outTileX = Math.floor(minGx / tileSize)` and `outPxX = minGx % tileSize`. -/

/-- From part_002 line 851: `gx1 = tx1 * tileSize + px1` (same for the other
corner and for Y). -/
def worldFromTilePixel (tileSize tile pixel : Nat) : Nat := tile * tileSize + pixel

/-- From part_002 line 935: `outTileX = Math.floor(minGx / tileSize)`. -/
def tileFromWorld (tileSize world : Nat) : Nat := world / tileSize

/-- From part_002 line 937: `outPxX = minGx % tileSize`. -/
def pixelFromWorld (tileSize world : Nat) : Nat := world % tileSize

/-- C2: the world-pixel flattening is a bijection: flattening then splitting
recovers the tile and pixel (when `pixel < TILE_SIZE`), and splitting then
flattening recovers the world-pixel value. -/
theorem world_pixel_bijection (T t p w : Nat) (hT : 0 < T) (hp : p < T) :
    tileFromWorld T (worldFromTilePixel T t p) = t ∧
    pixelFromWorld T (worldFromTilePixel T t p) = p ∧
    worldFromTilePixel T (tileFromWorld T w) (pixelFromWorld T w) = w := by
  refine ⟨?_, ?_, ?_⟩
  · show (t * T + p) / T = t
    rw [Nat.mul_comm t T, Nat.mul_add_div hT, Nat.div_eq_of_lt hp]
    omega
  · show (t * T + p) % T = p
    rw [Nat.mul_comm t T, Nat.mul_add_mod, Nat.mod_eq_of_lt hp]
  · show w / T * T + w % T = w
    rw [Nat.mul_comm]
    exact Nat.div_add_mod w T

/-- Witness for C2 at TILE_SIZE 1000, tile 2, pixel 345, world 2345. -/
theorem world_pixel_bijection_witness :
    0 < 1000 ∧ 345 < 1000 ∧
    (tileFromWorld 1000 (worldFromTilePixel 1000 2 345) = 2 ∧
      pixelFromWorld 1000 (worldFromTilePixel 1000 2 345) = 345 ∧
      worldFromTilePixel 1000 (tileFromWorld 1000 2345) (pixelFromWorld 1000 2345) = 2345) :=
  ⟨by decide, by decide, world_pixel_bijection 1000 2 345 2345 (by decide) (by decide)⟩

/-! ## C4: the save-area coordinate handler performs no pixel range check.

The only validation in the bm-button-save-area onclick is
`inp.value === '' || !Number.isFinite(Number(inp.value))`; an absent or
non-numeric input is modelled as `none`.  The coordinate inputs themselves
(bm-input-px and friends) constrain entry to `min 0, max 2047`. -/

/-- From part_002 lines 842-851: the handler rejects empty or non-finite
inputs with the malformed-coordinates error and otherwise computes
`tx * tileSize + px`; there is no range check against `tileSize`. -/
def saveAreaWorldX (tileSize : Nat) (tx px : Option Nat) : Except (List Char) Nat :=
  match tx, px with
  | some t, some p => Except.ok (t * tileSize + p)
  | _, _ => Except.error ("Coordinates are malformed!".toList)

/-- From the bm-input-px input element (part_002 line 763): `min 0, max 2047`. -/
def pxInputValid (p : Nat) : Bool := p ≤ 2047

/-- C4 counterexample: with TILE_SIZE 1000, pixel 1000 passes the form
constraint and the handler returns 3000 for tile 2 instead of raising a
range error. -/
theorem toWorld_no_range_error_counterexample :
    pxInputValid 1000 = true ∧
    saveAreaWorldX 1000 (some 2) (some 1000) = Except.ok 3000 :=
  ⟨rfl, rfl⟩

/-- C4 amended: toWorld never fails with a RangeError for an out-of-range
pixel: for any present pixel value (the UI form admits 0..2047), the handler
returns `tile * TILE_SIZE + pixel`; in particular toWorld(2, 1000) with
TILE_SIZE 1000 returns 3000. -/
theorem toWorld_amended (t p : Nat) (hp : p ≤ 2047) :
    pxInputValid p = true ∧
    saveAreaWorldX 1000 (some t) (some p) = Except.ok (t * 1000 + p) :=
  ⟨by simp [pxInputValid, hp], rfl⟩

/-- Witness for the amended C4 at tile 2, pixel 1000. -/
theorem toWorld_amended_witness :
    1000 ≤ 2047 ∧
    (pxInputValid 1000 = true ∧
      saveAreaWorldX 1000 (some 2) (some 1000) = Except.ok (2 * 1000 + 1000)) :=
  ⟨by decide, toWorld_amended 2 1000 (by decide)⟩

/-! ## C3: chunk keys round-trip through the key parser.

The chunk-key builder lives in templateManager.js; the parser is in
apiManager.js (#performAutoColorPicking), which splits a key on commas,
reads fields 2 and 3 with parseInt, and looks chunks up by the zero-padded
tile prefix via key.startsWith(tileKey). -/

/-- Modelled from the spec: `chunkKey` builds the canonical zero-padded,
sortable key "TTTT,TTTT,PPP,PPP" (templateManager.js, which constructs the
chunk keys, is not under src/); each field is `String(n).padStart(w, '0')`
with width 4 for tiles and 3 for local pixel offsets. -/
def chunkKey (tileX tileY localPixelX localPixelY : Nat) : List Char :=
  padStart0 4 tileX ++ ',' :: (padStart0 4 tileY ++
    ',' :: (padStart0 3 localPixelX ++ ',' :: padStart0 3 localPixelY))

/-- From apiManager #performAutoColorPicking line 187: the tile-coordinate
prefix used for chunk lookup, zero-padded to width 4 and comma-joined. -/
def tileKey (tileX tileY : Nat) : List Char :=
  padStart0 4 tileX ++ ',' :: padStart0 4 tileY

/-- From apiManager #performAutoColorPicking lines 206-210: a chunk key is
parsed by splitting on the comma and reading numeric fields with parseInt. -/
def parseChunkKey (key : List Char) : List (Option Nat) :=
  (splitOnL ',' key).map parseIntL

theorem splitOnL_chunkKey (tx ty px py : Nat) :
    splitOnL ',' (chunkKey tx ty px py) =
      [padStart0 4 tx, padStart0 4 ty, padStart0 3 px, padStart0 3 py] := by
  have hc : (',' : Char).isDigit = false := by decide
  have h4x := splitOnL_of_not_mem (not_mem_of_all_digits hc (padStart0_all_digits 4 tx))
  have h4y := splitOnL_of_not_mem (not_mem_of_all_digits hc (padStart0_all_digits 4 ty))
  have h3x := splitOnL_of_not_mem (not_mem_of_all_digits hc (padStart0_all_digits 3 px))
  have h3y := splitOnL_of_not_mem (not_mem_of_all_digits hc (padStart0_all_digits 3 py))
  unfold chunkKey
  rw [splitOnL_append, splitOnL_append, splitOnL_append, h4x, h4y, h3x, h3y]
  rfl

/-- C3: building the canonical zero-padded chunk key and parsing it back by
splitting on the comma recovers all four coordinates, and the key starts
with the zero-padded tile prefix used for chunk lookup. -/
theorem chunk_key_roundtrip (tx ty px py : Nat)
    (_htx : tx < 10000) (_hty : ty < 10000) (_hpx : px < 1000) (_hpy : py < 1000) :
    parseChunkKey (chunkKey tx ty px py) = [some tx, some ty, some px, some py] ∧
    splitOnL ',' (chunkKey tx ty px py) =
      [padStart0 4 tx, padStart0 4 ty, padStart0 3 px, padStart0 3 py] ∧
    startsWithL (chunkKey tx ty px py) (tileKey tx ty) = true := by
  refine ⟨?_, splitOnL_chunkKey tx ty px py, ?_⟩
  · unfold parseChunkKey
    rw [splitOnL_chunkKey]
    simp [parseIntL_padStart0]
  · have hsplit : chunkKey tx ty px py =
        tileKey tx ty ++ (',' :: (padStart0 3 px ++ ',' :: padStart0 3 py)) := by
      unfold chunkKey tileKey
      simp
    rw [hsplit]
    exact startsWithL_append _ _

/-- Witness for C3 at tile (12, 345), local pixel offset (67, 8). -/
theorem chunk_key_roundtrip_witness :
    (12 < 10000 ∧ 345 < 10000 ∧ 67 < 1000 ∧ 8 < 1000) ∧
    (parseChunkKey (chunkKey 12 345 67 8) = [some 12, some 345, some 67, some 8] ∧
      splitOnL ',' (chunkKey 12 345 67 8) =
        [padStart0 4 12, padStart0 4 345, padStart0 3 67, padStart0 3 8] ∧
      startsWithL (chunkKey 12 345 67 8) (tileKey 12 345) = true) :=
  ⟨by decide,
    chunk_key_roundtrip 12 345 67 8 (by decide) (by decide) (by decide) (by decide)⟩

/-! ## C1: placement of the center dot inside a scale block.

templateManager.js (the Quantizer/Chunker) is not under src/; the block
layout is modelled from the spec, which paints only the center sub-cell of
each upscaled s-by-s block, "at offset (scaleFactor/2, scaleFactor/2)
rounded".  JS Math.round(s / 2) is (s + 1) / 2 in integer arithmetic. -/

structure Rgb where
  r : Nat
  g : Nat
  b : Nat
deriving DecidableEq

/-- Modelled from the spec: the rounded center offset `Math.round(s / 2)`
of a scale block. -/
def dotOffset (s : Nat) : Nat := (s + 1) / 2

/-- Modelled from the spec: one cell of the upscaled chunk bitmap produced
by the Quantizer/Chunker (templateManager.js is not under src/).  `grid`
holds each source pixel matched palette color (`none` for skipped pixels:
transparent, sentinel, or unmatched); source pixel (px, py) paints exactly
the bitmap cell (px * s + dotOffset s, py * s + dotOffset s) with its
matched color, and every other cell stays transparent. -/
def chunkCell (s : Nat) (grid : List (List (Option Rgb))) (x y : Nat) : Option Rgb :=
  if dotOffset s ≤ x ∧ (x - dotOffset s) % s = 0 ∧
      dotOffset s ≤ y ∧ (y - dotOffset s) % s = 0 then
    (grid.getD ((y - dotOffset s) / s) []).getD ((x - dotOffset s) / s) none
  else none

theorem dot_axis_iff (s d p j : Nat) (hd : d < s) (hj : j < s) :
    (d ≤ p * s + j ∧ (p * s + j - d) % s = 0) ↔ j = d := by
  constructor
  · rintro ⟨h1, h2⟩
    rcases Nat.lt_or_ge j d with hjd | hjd
    · rcases Nat.eq_zero_or_pos p with rfl | hp
      · rw [Nat.zero_mul] at h1
        omega
      · obtain ⟨q, rfl⟩ : ∃ q, p = q + 1 := ⟨p - 1, by omega⟩
        rw [Nat.succ_mul] at h1 h2
        have e2 : q * s + s + j - d = (s - (d - j)) + q * s := by omega
        rw [e2, Nat.add_mul_mod_self_right, Nat.mod_eq_of_lt (by omega)] at h2
        omega
    · have e1 : p * s + j - d = (j - d) + p * s := by omega
      rw [e1, Nat.add_mul_mod_self_right, Nat.mod_eq_of_lt (by omega)] at h2
      omega
  · rintro rfl
    exact ⟨Nat.le_add_left _ _, by simp [Nat.add_sub_cancel, Nat.mul_mod_left]⟩

/-- C1 counterexample: at scale factor s = 1 the claimed dot offset
round(1/2) = 1 is not an offset inside the 1-by-1 block at all, and the
block of source pixel (1, 1) in a 2-by-2 image holds, at offset (0, 0), the
fully-opaque dot of the neighboring pixel (0, 0) — a different color — so
the other sub-cells of the block are not transparent and the opaque cell is
not at the claimed offset. -/
theorem chunk_center_dot_counterexample :
    dotOffset 1 = 1 ∧ ¬ dotOffset 1 < 1 ∧
    chunkCell 1 [[some ⟨0, 0, 0⟩, some ⟨255, 255, 255⟩],
                 [some ⟨255, 255, 255⟩, some ⟨0, 255, 0⟩]] 1 1 = some ⟨0, 0, 0⟩ ∧
    (⟨0, 0, 0⟩ : Rgb) ≠ ⟨0, 255, 0⟩ := by
  refine ⟨rfl, by decide, ?_, by decide⟩
  decide

/-- C1 amended: for every scale factor s ≥ 2 (s = 1 is excluded: there the
rounded offset 1 lies outside the 1-by-1 block and the dot lands in the
neighboring block), the fully-opaque colored sub-cell of the s-by-s block of
a matched source pixel is at offset (round(s/2), round(s/2)), reading the
chunk bitmap there yields exactly that pixel's matched palette color, and
every other sub-cell of the block is transparent. -/
theorem chunk_center_dot_amended (s : Nat) (hs : 2 ≤ s)
    (grid : List (List (Option Rgb))) (px py : Nat) (c : Rgb)
    (hc : (grid.getD py []).getD px none = some c) :
    dotOffset s < s ∧
    chunkCell s grid (px * s + dotOffset s) (py * s + dotOffset s) = some c ∧
    ∀ i j, i < s → j < s → ¬(i = dotOffset s ∧ j = dotOffset s) →
      chunkCell s grid (px * s + i) (py * s + j) = none := by
  have hd : dotOffset s < s := by unfold dotOffset; omega
  have hs0 : 0 < s := by omega
  refine ⟨hd, ?_, ?_⟩
  · have hx := (dot_axis_iff s (dotOffset s) px (dotOffset s) hd hd).mpr rfl
    have hy := (dot_axis_iff s (dotOffset s) py (dotOffset s) hd hd).mpr rfl
    unfold chunkCell
    rw [if_pos ⟨hx.1, hx.2, hy.1, hy.2⟩]
    have ex : px * s + dotOffset s - dotOffset s = px * s := by omega
    have ey : py * s + dotOffset s - dotOffset s = py * s := by omega
    rw [ex, ey, Nat.mul_div_cancel _ hs0, Nat.mul_div_cancel _ hs0]
    exact hc
  · intro i j hi hj hne
    unfold chunkCell
    rw [if_neg]
    intro hcond
    obtain ⟨hx1, hx2, hy1, hy2⟩ := hcond
    exact hne ⟨(dot_axis_iff s (dotOffset s) px i hd hi).mp ⟨hx1, hx2⟩,
      (dot_axis_iff s (dotOffset s) py j hd hj).mp ⟨hy1, hy2⟩⟩

/-- Witness for the amended C1 at s = 3 on a single black pixel: the dot
offset is 2, the dot cell carries the color, and the block corner (0, 0) is
transparent. -/
theorem chunk_center_dot_amended_witness :
    2 ≤ 3 ∧
    (([[some (⟨0, 0, 0⟩ : Rgb)]].getD 0 []).getD 0 none = some (⟨0, 0, 0⟩ : Rgb)) ∧
    dotOffset 3 < 3 ∧
    chunkCell 3 [[some ⟨0, 0, 0⟩]] (0 * 3 + dotOffset 3) (0 * 3 + dotOffset 3) =
      some ⟨0, 0, 0⟩ ∧
    chunkCell 3 [[some ⟨0, 0, 0⟩]] (0 * 3 + 0) (0 * 3 + 0) = none := by
  have h := chunk_center_dot_amended 3 (by decide) [[some ⟨0, 0, 0⟩]] 0 0
    ⟨0, 0, 0⟩ (by decide)
  exact ⟨by decide, by decide, h.1, h.2.1,
    h.2.2 0 0 (by decide) (by decide) (by decide)⟩

/-! ## C5: the sentinel triple (222, 250, 206) is never paintable.

The palette table lives in utils.js, which is not under src/; it is
modelled from the spec (entries with id, name, rgb, premium; unique rgb
triples; the reserved deface sentinel marks "intentionally not painted" and
carries id 0, the id the area capture treats as "no color").  The two
operations below are embedded from src: the auto color picker
(apiManager #performAutoColorPicking) and the area-capture export
(part_002 bm-button-save-area onclick). -/

structure Rgba where
  r : Nat
  g : Nat
  b : Nat
  a : Nat
deriving DecidableEq

structure PaletteEntry where
  id : Nat
  name : List Char
  rgb : Rgb
  premium : Bool

/-- Modelled from the spec: the static palette table (utils.js is not under
src/).  All rgb triples are unique; the reserved sentinel (222, 250, 206)
has id 0 and is never a paintable color. -/
def colorpalette : List PaletteEntry :=
  [⟨0, "Transparent".toList, ⟨222, 250, 206⟩, false⟩,
   ⟨1, "Black".toList, ⟨0, 0, 0⟩, false⟩,
   ⟨2, "Dark Gray".toList, ⟨60, 60, 60⟩, false⟩,
   ⟨3, "Gray".toList, ⟨120, 120, 120⟩, false⟩,
   ⟨4, "White".toList, ⟨255, 255, 255⟩, false⟩,
   ⟨5, "Deep Red".toList, ⟨96, 0, 24⟩, true⟩]

/-- From part_002 lines 909-913: the rgb-to-id map built from the palette;
the first occurrence of an rgb key wins. -/
def rgbToID (r g b : Nat) : Option Nat :=
  (colorpalette.find? (fun c => c.rgb.r == r && c.rgb.g == g && c.rgb.b == b)).map
    (fun c => c.id)

/-- From part_002 line 919: `id = a === 0 ? 0 : (rgbToID.get(key) ?? 0)`. -/
def areaCaptureID (p : Rgba) : Nat :=
  if p.a == 0 then 0 else (rgbToID p.r p.g p.b).getD 0

/-- From part_002 lines 920-927: a pixel with id 0 is written as the deface
sentinel (0xDE, 0xFA, 0xCE) with alpha 0; otherwise its color is written
fully opaque. -/
def areaCapturePixel (p : Rgba) : Rgba :=
  if areaCaptureID p == 0 then ⟨222, 250, 206, 0⟩ else ⟨p.r, p.g, p.b, 255⟩

/-- From apiManager #performAutoColorPicking lines 236-262: pixels with
alpha below 64 are skipped, the deface sentinel is skipped before any
palette lookup, and otherwise the exact palette match is selected. -/
def autoPickColor (p : Rgba) : Option Nat :=
  if p.a < 64 then none
  else if p.r == 222 && p.g == 250 && p.b == 206 then none
  else (colorpalette.find? (fun c => c.rgb.r == p.r && c.rgb.g == p.g && c.rgb.b == p.b)).map
    (fun c => c.id)

/-- C5: a pixel whose RGB equals the sentinel is never selected by the auto
color picker and is written by the area capture as the sentinel with alpha
0; conversely, every pixel the area capture does not write as the sentinel
triple with alpha 0 is a non-transparent pixel with an exact, paintable
(nonzero-id) palette match, written fully opaque. -/
theorem sentinel_never_paintable (p : Rgba) :
    (p.r = 222 ∧ p.g = 250 ∧ p.b = 206 →
      autoPickColor p = none ∧ areaCapturePixel p = ⟨222, 250, 206, 0⟩) ∧
    (areaCapturePixel p ≠ ⟨222, 250, 206, 0⟩ →
      p.a ≠ 0 ∧ areaCapturePixel p = ⟨p.r, p.g, p.b, 255⟩ ∧
      ∃ e ∈ colorpalette, e.id ≠ 0 ∧ e.rgb = ⟨p.r, p.g, p.b⟩) := by
  constructor
  · rintro ⟨hr, hg, hb⟩
    have hsent : rgbToID p.r p.g p.b = some 0 := by
      rw [hr, hg, hb]
      decide
    constructor
    · unfold autoPickColor
      by_cases ha : p.a < 64 <;> simp [ha, hr, hg, hb]
    · unfold areaCapturePixel areaCaptureID
      rw [hsent]
      by_cases ha : p.a == 0 <;> simp [ha]
  · intro hne
    have hid : areaCaptureID p ≠ 0 := by
      intro h0
      apply hne
      unfold areaCapturePixel
      simp [h0]
    have hout : areaCapturePixel p = ⟨p.r, p.g, p.b, 255⟩ := by
      unfold areaCapturePixel
      simp [hid]
    have ha : p.a ≠ 0 := by
      intro h0
      apply hid
      unfold areaCaptureID
      simp [h0]
    refine ⟨ha, hout, ?_⟩
    have hk : (rgbToID p.r p.g p.b).getD 0 ≠ 0 := by
      intro h0
      apply hid
      unfold areaCaptureID
      simp [ha, h0]
    rcases hfind : rgbToID p.r p.g p.b with _ | k
    · rw [hfind] at hk
      simp at hk
    · rw [hfind] at hk
      simp only [Option.getD_some] at hk
      unfold rgbToID at hfind
      rcases Option.map_eq_some'.mp hfind with ⟨e, he, hek⟩
      refine ⟨e, List.mem_of_find?_eq_some he, by omega, ?_⟩
      have hp := List.find?_some he
      simp only [Bool.and_eq_true, beq_iff_eq] at hp
      obtain ⟨⟨h1, h2⟩, h3⟩ := hp
      cases hrgb : e.rgb
      rw [hrgb] at h1 h2 h3
      simp_all

/-- Witness for C5 at the fully-opaque sentinel pixel. -/
theorem sentinel_never_paintable_witness :
    autoPickColor ⟨222, 250, 206, 255⟩ = none ∧
    areaCapturePixel ⟨222, 250, 206, 255⟩ = ⟨222, 250, 206, 0⟩ :=
  (sentinel_never_paintable ⟨222, 250, 206, 255⟩).1 ⟨rfl, rfl, rfl⟩

/-! ## Tile compositing and the tiles message handler.

drawTemplateOnTile lives in templateManager.js, which is not under src/;
the compositor is modelled from spec section 4.4.  The surrounding message
plumbing (endpoint parsing, blob cache, reply) is embedded from
apiManager.js, case 'tiles' of spontaneousResponseListener (lines 125-147). -/

abbrev Bitmap := List (List Rgba)

structure TemplateChunk where
  tileX : Nat
  tileY : Nat
  offX : Nat
  offY : Nat
  bitmap : Bitmap

structure Template where
  shouldBeDrawn : Bool
  palette : List (Rgb × Bool)
  chunks : List TemplateChunk

/-- Modelled from the spec: the per-color enabled flag of the template
colorPalette map; `none` when the chunk references a palette key that is no
longer present. -/
def lookupEnabled (pal : List (Rgb × Bool)) (c : Rgb) : Option Bool :=
  (pal.find? (fun e => decide (e.1 = c))).map (fun e => e.2)

/-- Modelled from the spec: the chunk pixel covering tile cell (x, y), when
the chunk local offset reaches that cell. -/
def chunkPixelAt (ch : TemplateChunk) (x y : Nat) : Option Rgba :=
  if ch.offX ≤ x ∧ ch.offY ≤ y then
    (ch.bitmap.getD (y - ch.offY) []).get? (x - ch.offX)
  else none

/-- Modelled from the spec: drawing one chunk over one cell — only
non-transparent chunk pixels whose palette entry is currently enabled
replace the underlying cell (alpha replace, no blending). -/
def drawChunkCell (pal : List (Rgb × Bool)) (ch : TemplateChunk) (x y : Nat)
    (under : Rgba) : Rgba :=
  match chunkPixelAt ch x y with
  | some px =>
    if px.a ≠ 0 ∧ lookupEnabled pal ⟨px.r, px.g, px.b⟩ = some true then
      ⟨px.r, px.g, px.b, px.a⟩
    else under
  | none => under

/-- Modelled from the spec: one template draws all of its chunks whose key
matches the tile, in chunk order. -/
def drawTemplateCell (t : Template) (tileX tileY x y : Nat) (under : Rgba) : Rgba :=
  (t.chunks.filter (fun ch => decide (ch.tileX = tileX ∧ ch.tileY = tileY))).foldl
    (fun acc ch => drawChunkCell t.palette ch x y acc) under

/-- Modelled from the spec: templates draw in insertion order (later
templates on top), skipping templates whose shouldBeDrawn flag is off. -/
def compositeCell (templates : List Template) (tileX tileY x y : Nat) (under : Rgba) : Rgba :=
  templates.foldl
    (fun acc t => if t.shouldBeDrawn then drawTemplateCell t tileX tileY x y acc else acc)
    under

/-- Modelled from the spec: `drawTemplateOnTile` of templateManager.js (not
under src/) — composites every active template chunk over the raw tile
bitmap, cell by cell, and returns the new bitmap. -/
def drawTemplateOnTile (templates : List Template) (tileX tileY : Nat) (raw : Bitmap) :
    Bitmap :=
  raw.mapIdx (fun y row => row.mapIdx (fun x px => compositeCell templates tileX tileY x y px))

/-- Modelled from the spec: the compositor as called with the coordinates
parseInt produced; a NaN coordinate (`none`) matches no chunk key, so the
tile is returned unchanged. -/
def drawTemplateOnTileJS (templates : List Template) (coords : Option Nat × Option Nat)
    (raw : Bitmap) : Bitmap :=
  match coords with
  | (some x, some y) => drawTemplateOnTile templates x y raw
  | _ => raw

/-- The literal 'blue-marble' message source tag. -/
def blueMarbleSource : List Char := "blue-marble".toList

/-- The literal '.png' suffix stripped from the last path segment. -/
def pngSuffix : List Char := ['.', 'p', 'n', 'g']

/-- A 'tiles' message as received by spontaneousResponseListener: the
endpoint URL, the opaque blob identifier, and the raw tile blob. -/
structure TilesMsg where
  endpoint : List Char
  blobID : List Char
  blobData : Bitmap

/-- The reply posted back by the 'tiles' case via window.postMessage. -/
structure TilesReply where
  source : List Char
  blobID : List Char
  blobData : Bitmap

/-- The `tileBlobs` cache of ApiManager, keyed by tile coordinates (the
source keys by the string template `x,y`, modelled here by the parsed
coordinate pair). -/
abbrev TileBlobCache := List ((Option Nat × Option Nat) × Bitmap)

/-- Models `Map.prototype.set`: replace the value under an existing key in
place, otherwise append the new entry. -/
def mapSet (m : TileBlobCache) (k : Option Nat × Option Nat) (v : Bitmap) : TileBlobCache :=
  if m.any (fun e => decide (e.1 = k)) then
    m.map (fun e => if e.1 = k then (k, v) else e)
  else m ++ [(k, v)]

/-- From apiManager lines 128-129: the tile coordinates are the last two
path segments of the endpoint, the final one with '.png' stripped, both
read with parseInt. -/
def tileCoordsOfEndpoint (endpoint : List Char) : Option Nat × Option Nat :=
  (parseIntL ((splitOnL '/' endpoint).getD ((splitOnL '/' endpoint).length - 2) []),
   parseIntL (replaceFirstL ((splitOnL '/' endpoint).getD ((splitOnL '/' endpoint).length - 1) [])
     pngSuffix))

/-- From apiManager lines 125-147, case 'tiles': cache the raw blob under
the tile key, run the compositor once on the raw blob, and post back a
blue-marble message carrying the composited blob under the unaltered
blobID.  The third component records the compositor invocations (arguments
of each call). -/
def tilesHandler (templates : List Template) (cache : TileBlobCache) (msg : TilesMsg) :
    TileBlobCache × TilesReply × List ((Option Nat × Option Nat) × Bitmap) :=
  (mapSet cache (tileCoordsOfEndpoint msg.endpoint) msg.blobData,
   ⟨blueMarbleSource, msg.blobID,
     drawTemplateOnTileJS templates (tileCoordsOfEndpoint msg.endpoint) msg.blobData⟩,
   [(tileCoordsOfEndpoint msg.endpoint, msg.blobData)])

theorem mapSet_idem (m : TileBlobCache) (k : Option Nat × Option Nat) (v : Bitmap) :
    mapSet (mapSet m k v) k v = mapSet m k v := by
  unfold mapSet
  by_cases h : m.any (fun e => decide (e.1 = k)) = true
  · rw [if_pos h]
    have hmem : (m.map (fun e => if e.1 = k then (k, v) else e)).any
        (fun e => decide (e.1 = k)) = true := by
      rcases List.any_eq_true.mp h with ⟨e, he, hek⟩
      simp only [decide_eq_true_eq] at hek
      refine List.any_eq_true.mpr ⟨(k, v), ?_, by simp⟩
      have hm2 := List.mem_map_of_mem (fun e => if e.1 = k then (k, v) else e) he
      simp only [hek, if_true] at hm2
      exact hm2
    rw [if_pos hmem, List.map_map]
    apply List.map_congr_left
    intro e _
    by_cases hek : e.1 = k <;> simp [hek]
  · rw [if_neg h]
    have hall : ∀ e ∈ m, ¬e.1 = k := by
      intro e he hek
      exact h (List.any_eq_true.mpr ⟨e, he, by simp [hek]⟩)
    have hmem : (m ++ [(k, v)]).any (fun e => decide (e.1 = k)) = true :=
      List.any_eq_true.mpr ⟨(k, v), by simp, by simp⟩
    rw [if_pos hmem, List.map_append]
    have h1 : m.map (fun e => if e.1 = k then (k, v) else e) = m := by
      have := List.map_congr_left (l := m)
        (f := fun e => if e.1 = k then (k, v) else e) (g := fun e => e)
        (fun e he => by simp [hall e he])
      simpa using this
    simp [h1]

/-- C6: the tiles handler is idempotent and pure given its inputs — running
it twice on the same message with the same templates yields byte-identical
composited output both times, and the second run leaves the blob cache
unchanged. -/
theorem composite_idempotent (templates : List Template) (cache : TileBlobCache)
    (msg : TilesMsg) :
    (tilesHandler templates (tilesHandler templates cache msg).1 msg).2.1.blobData =
      (tilesHandler templates cache msg).2.1.blobData ∧
    (tilesHandler templates (tilesHandler templates cache msg).1 msg).1 =
      (tilesHandler templates cache msg).1 :=
  ⟨rfl, mapSet_idem cache (tileCoordsOfEndpoint msg.endpoint) msg.blobData⟩

theorem isDigit_beq_false {c d : Char} (h : c.isDigit = true) (hd : d.isDigit = false) :
    (c == d) = false := by
  cases hb : c == d
  · rfl
  · rw [beq_iff_eq] at hb
    subst hb
    rw [h] at hd
    cases hd

theorem replaceFirstL_digits_png {ds : List Char} (h : ∀ c ∈ ds, c.isDigit = true) :
    replaceFirstL (ds ++ pngSuffix) pngSuffix = ds := by
  induction ds with
  | nil => decide
  | cons d ds ih =>
    have hd : (d == '.') = false := isDigit_beq_false (h d (by simp)) (by decide)
    have hsw : startsWithL (d :: (ds ++ pngSuffix)) pngSuffix = false := by
      simp [pngSuffix, startsWithL, hd]
    simp only [List.cons_append, List.append_eq, replaceFirstL, hsw, Bool.false_eq_true,
      if_false]
    rw [ih fun c hc => h c (by simp [hc])]

theorem getD_append_two {α : Type} (S : List α) (A B d : α) :
    (S ++ [A, B]).getD S.length d = A ∧ (S ++ [A, B]).getD (S.length + 1) d = B := by
  induction S with
  | nil => exact ⟨rfl, rfl⟩
  | cons a S ih => simpa [List.getD_cons_succ] using ih

theorem slash_not_mem_digits (n : Nat) : ('/' : Char) ∉ natToDigits n :=
  not_mem_of_all_digits (by decide) (natToDigits_all_digits n)

theorem slash_not_mem_digits_png (n : Nat) :
    ('/' : Char) ∉ natToDigits n ++ pngSuffix := by
  intro hm
  rcases List.mem_append.mp hm with h1 | h2
  · exact slash_not_mem_digits n h1
  · revert h2
    decide

theorem tileCoordsOfEndpoint_eq (pre : List Char) (x y : Nat) :
    tileCoordsOfEndpoint
        (pre ++ '/' :: (natToDigits x ++ '/' :: (natToDigits y ++ pngSuffix))) =
      (some x, some y) := by
  have hsegs : splitOnL '/' (pre ++ '/' :: (natToDigits x ++ '/' :: (natToDigits y ++ pngSuffix)))
      = splitOnL '/' pre ++ [natToDigits x, natToDigits y ++ pngSuffix] := by
    rw [splitOnL_append, splitOnL_append, splitOnL_of_not_mem (slash_not_mem_digits x),
      splitOnL_of_not_mem (slash_not_mem_digits_png y)]
    simp
  unfold tileCoordsOfEndpoint
  rw [hsegs]
  have hlen2 : (splitOnL '/' pre ++ [natToDigits x, natToDigits y ++ pngSuffix]).length - 2 =
      (splitOnL '/' pre).length := by
    simp
  have hlen1 : (splitOnL '/' pre ++ [natToDigits x, natToDigits y ++ pngSuffix]).length - 1 =
      (splitOnL '/' pre).length + 1 := by
    simp
  rw [hlen2, hlen1, (getD_append_two (splitOnL '/' pre) (natToDigits x)
      (natToDigits y ++ pngSuffix) []).1,
    (getD_append_two (splitOnL '/' pre) (natToDigits x) (natToDigits y ++ pngSuffix) []).2,
    replaceFirstL_digits_png (natToDigits_all_digits y),
    parseIntL_natToDigits, parseIntL_natToDigits]

/-- C8: for a tiles message whose endpoint ends in .../x/y.png with numeric
x and y, the handler parses exactly those tile coordinates, invokes the
compositor exactly once with them and the raw blob, and posts back a
blue-marble reply carrying the composited blob under the unaltered blobID. -/
theorem tiles_message_compositor_call (templates : List Template) (cache : TileBlobCache)
    (msg : TilesMsg) (pre : List Char) (x y : Nat)
    (hend : msg.endpoint = pre ++ '/' :: (natToDigits x ++ '/' :: (natToDigits y ++ pngSuffix))) :
    tileCoordsOfEndpoint msg.endpoint = (some x, some y) ∧
    (tilesHandler templates cache msg).2.2 = [((some x, some y), msg.blobData)] ∧
    (tilesHandler templates cache msg).2.1.source = blueMarbleSource ∧
    (tilesHandler templates cache msg).2.1.blobID = msg.blobID ∧
    (tilesHandler templates cache msg).2.1.blobData =
      drawTemplateOnTile templates x y msg.blobData := by
  have hcoords : tileCoordsOfEndpoint msg.endpoint = (some x, some y) := by
    rw [hend]
    exact tileCoordsOfEndpoint_eq pre x y
  refine ⟨hcoords, ?_, rfl, rfl, ?_⟩
  · show [(tileCoordsOfEndpoint msg.endpoint, msg.blobData)] = _
    rw [hcoords]
  · show drawTemplateOnTileJS templates (tileCoordsOfEndpoint msg.endpoint) msg.blobData = _
    rw [hcoords]
    rfl

/-- Concrete endpoint for the C8 witness: a tiles URL for tile (12, 34). -/
def tilesWitnessEndpoint : List Char :=
  "https://backend.wplace.live/files/s0/tiles".toList ++
    '/' :: (natToDigits 12 ++ '/' :: (natToDigits 34 ++ pngSuffix))

/-- Witness for C8 at tile (12, 34) with a one-pixel raw blob. -/
theorem tiles_message_compositor_call_witness :
    tileCoordsOfEndpoint tilesWitnessEndpoint = (some 12, some 34) ∧
    (tilesHandler [] [] ⟨tilesWitnessEndpoint, "id-1".toList, [[⟨1, 2, 3, 255⟩]]⟩).2.2 =
      [((some 12, some 34), [[⟨1, 2, 3, 255⟩]])] ∧
    (tilesHandler [] [] ⟨tilesWitnessEndpoint, "id-1".toList, [[⟨1, 2, 3, 255⟩]]⟩).2.1.source =
      blueMarbleSource ∧
    (tilesHandler [] [] ⟨tilesWitnessEndpoint, "id-1".toList, [[⟨1, 2, 3, 255⟩]]⟩).2.1.blobID =
      "id-1".toList ∧
    (tilesHandler [] [] ⟨tilesWitnessEndpoint, "id-1".toList, [[⟨1, 2, 3, 255⟩]]⟩).2.1.blobData =
      drawTemplateOnTile [] 12 34 [[⟨1, 2, 3, 255⟩]] :=
  tiles_message_compositor_call [] [] ⟨tilesWitnessEndpoint, "id-1".toList, [[⟨1, 2, 3, 255⟩]]⟩
    ("https://backend.wplace.live/files/s0/tiles".toList) 12 34 rfl

/-! ## C7: what the caller of an intercepted fetch receives.

The injected window.fetch override (part_001 and part_002, lines 73-157)
returns the original response for JSON and excluded content; for image
responses outside the openfreemap/maps exclusions it posts a blue-marble
message and returns a promise that resolves only when the processed blob
comes back.  Only the apiManager 'tiles' case ever posts a processed blob
back, so image fetches whose endpoint does not classify as 'tiles' leave
the promise unresolved and the caller receives no Response at all. -/

/-- From apiManager line 50: a path segment JS keeps as numeric; the
segments appearing in the intercepted endpoints are numeric exactly when
they consist of decimal digits. -/
def jsIsNumericSeg (s : List Char) : Bool :=
  !s.isEmpty && s.all (fun c => c.isDigit)

/-- From apiManager line 50: trims the endpoint to the last path segment
before the query string that is non-empty, non-numeric, and carries no
dot. -/
def endpointTextOf (endpoint : List Char) : Option (List Char) :=
  (((splitOnL '/' ((splitOnL '?' endpoint).getD 0 [])).filter
      (fun s => !s.isEmpty && !jsIsNumericSeg s)).filter
    (fun s => !s.isEmpty && !includesL s ['.'])).getLast?

/-- The literal 'application/json' content-type test of the fetch override. -/
def jsonCT : List Char := "application/json".toList

/-- The literal 'image/' content-type test of the fetch override. -/
def imageCT : List Char := "image/".toList

/-- The literal 'openfreemap' URL exclusion of the fetch override. -/
def openfreemapStr : List Char := "openfreemap".toList

/-- The literal 'maps' URL exclusion of the fetch override. -/
def mapsStr : List Char := "maps".toList

/-- The literal 'tiles' endpoint classification. -/
def tilesStr : List Char := "tiles".toList

/-- An intercepted response: URL, Content-Type, and the reply metadata the
override copies from the clone. -/
structure RespInfo where
  url : List Char
  contentType : List Char
  status : Nat
  statusText : List Char
  headers : List (List Char × List Char)
  body : Bitmap

/-- What the caller of fetch eventually receives. -/
inductive FetchOutcome where
  | passthrough
  | substituted (body : Bitmap) (headers : List (List Char × List Char)) (status : Nat)
      (statusText : List Char)
  | pending
deriving DecidableEq

/-- From part_002 lines 73-157 combined with the apiManager message
listener and the injected blob-queue listener: JSON content is passed
through unchanged (the message it posts carries no blob); image content
outside the openfreemap/maps exclusions is substituted with the composited
blob and the cloned headers, status, and statusText when the endpoint
classifies as 'tiles', and otherwise waits forever for a reply that no
handler sends; everything else is passed through unchanged. -/
def fetchOutcome (templates : List Template) (r : RespInfo) : FetchOutcome :=
  if includesL r.contentType jsonCT then FetchOutcome.passthrough
  else if includesL r.contentType imageCT && !includesL r.url openfreemapStr &&
      !includesL r.url mapsStr then
    if endpointTextOf r.url = some tilesStr then
      FetchOutcome.substituted
        (drawTemplateOnTileJS templates (tileCoordsOfEndpoint r.url) r.body)
        r.headers r.status r.statusText
    else FetchOutcome.pending
  else FetchOutcome.passthrough

/-- C7 counterexample: an intercepted image response from a non-tile
endpoint (URL containing neither 'openfreemap' nor 'maps') is neither
substituted nor returned: its endpoint classifies as 'assets', no handler
posts the processed blob back, and the caller waits forever. -/
theorem fetch_substitution_counterexample :
    includesL ("https://wplace.live/assets/logo.png".toList) openfreemapStr = false ∧
    includesL ("https://wplace.live/assets/logo.png".toList) mapsStr = false ∧
    includesL ("image/png".toList) imageCT = true ∧
    endpointTextOf ("https://wplace.live/assets/logo.png".toList) = some ("assets".toList) ∧
    fetchOutcome [] ⟨"https://wplace.live/assets/logo.png".toList, "image/png".toList,
      200, "OK".toList, [], [[⟨1, 2, 3, 255⟩]]⟩ = FetchOutcome.pending := by
  refine ⟨by decide, by decide, by decide, by decide, ?_⟩
  decide

/-- C7 amended: JSON responses and excluded or non-image responses are
returned to the caller unmodified; an image response outside the
exclusions is substituted — with the compositor-processed blob as body and
exactly the original headers, status, and statusText — precisely when its
endpoint classifies as 'tiles', and otherwise the caller receives no
Response at all (the promise never resolves). -/
theorem fetch_substitution_amended (templates : List Template) (r : RespInfo) :
    (includesL r.contentType jsonCT = true →
      fetchOutcome templates r = FetchOutcome.passthrough) ∧
    (includesL r.contentType jsonCT = false →
      (includesL r.contentType imageCT = true → includesL r.url openfreemapStr = false →
        includesL r.url mapsStr = false →
        (endpointTextOf r.url = some tilesStr →
          fetchOutcome templates r = FetchOutcome.substituted
            (drawTemplateOnTileJS templates (tileCoordsOfEndpoint r.url) r.body)
            r.headers r.status r.statusText) ∧
        (endpointTextOf r.url ≠ some tilesStr →
          fetchOutcome templates r = FetchOutcome.pending)) ∧
      (includesL r.contentType imageCT = false ∨ includesL r.url openfreemapStr = true ∨
        includesL r.url mapsStr = true →
        fetchOutcome templates r = FetchOutcome.passthrough)) := by
  constructor
  · intro hj
    simp [fetchOutcome, hj]
  · intro hj
    constructor
    · intro hi ho hm
      constructor
      · intro ht
        simp [fetchOutcome, hj, hi, ho, hm, ht]
      · intro ht
        simp [fetchOutcome, hj, hi, ho, hm, ht]
    · rintro (h | h | h) <;> simp [fetchOutcome, hj, h]

/-- Witness for the amended C7 at a concrete tiles image fetch. -/
theorem fetch_substitution_amended_witness :
    fetchOutcome [] ⟨tilesWitnessEndpoint, "image/png".toList, 200, "OK".toList,
        [("content-type".toList, "image/png".toList)], [[⟨1, 2, 3, 255⟩]]⟩ =
      FetchOutcome.substituted
        (drawTemplateOnTileJS [] (tileCoordsOfEndpoint tilesWitnessEndpoint)
          [[⟨1, 2, 3, 255⟩]])
        [("content-type".toList, "image/png".toList)] 200 ("OK".toList) :=
  (((fetch_substitution_amended [] _).2 (by decide)).1 (by decide) (by decide)
    (by decide)).1 (by decide)

/-! ## C9: the in-flight blob queue never leaks an answered entry.

From the injected message listener (part_002 lines 40-67, part_001 lines
40-68): messages from blue-marble that carry a blobID and blob data and no
endpoint look the blobID up in fetchedBlobQueue, invoke the stored callback
when one is registered (warn otherwise), and delete the entry in every
case. -/

/-- A message as destructured by the injected listener.  `none` models an
absent field; an empty string is also falsy in the JS truthiness tests. -/
structure BlobMsg where
  source : List Char
  endpoint : Option (List Char)
  blobID : Option (List Char)
  blobData : Option Bitmap

/-- JS truthiness of an optional string: present and non-empty. -/
def truthyStr : Option (List Char) → Bool
  | none => false
  | some s => !s.isEmpty

/-- The fetchedBlobQueue: blobID to registered callback (callbacks are
modelled by opaque identifiers). -/
abbrev BlobQueue := List (List Char × Nat)

/-- From part_002 lines 40-67: the injected listener.  Returns the new
queue and the invocation performed, i.e. the callback identifier fired
together with the processed blob handed to it (`none` when nothing was
invoked and the message was ignored with a warning). -/
def blobQueueListener (q : BlobQueue) (msg : BlobMsg) :
    BlobQueue × Option (Nat × Bitmap) :=
  if msg.source = blueMarbleSource ∧ truthyStr msg.blobID = true ∧ msg.blobData.isSome ∧
      truthyStr msg.endpoint = false then
    match msg.blobID, msg.blobData with
    | some id, some blob =>
      (q.filter (fun e => !decide (e.1 = id)),
       (q.find? (fun e => decide (e.1 = id))).map (fun e => (e.2, blob)))
    | _, _ => (q, none)
  else (q, none)

/-- C9: for every message with source blue-marble, a non-empty blobID, blob
data, and no endpoint, the callback registered under that blobID is invoked
with the processed blob exactly when such a callback exists, and in every
case the blobID entry is gone from the queue afterwards. -/
theorem blob_queue_no_leak (q : BlobQueue) (msg : BlobMsg) (id : List Char) (blob : Bitmap)
    (hsrc : msg.source = blueMarbleSource) (hid : msg.blobID = some id) (hidne : id ≠ [])
    (hdata : msg.blobData = some blob) (hep : truthyStr msg.endpoint = false) :
    (blobQueueListener q msg).2 =
      (q.find? (fun e => decide (e.1 = id))).map (fun e => (e.2, blob)) ∧
    ((blobQueueListener q msg).2 = none ↔ q.find? (fun e => decide (e.1 = id)) = none) ∧
    (blobQueueListener q msg).1.find? (fun e => decide (e.1 = id)) = none := by
  have htr : truthyStr (some id) = true := by
    cases id with
    | nil => exact absurd rfl hidne
    | cons c cs => rfl
  have hrun : blobQueueListener q msg =
      (q.filter (fun e => !decide (e.1 = id)),
       (q.find? (fun e => decide (e.1 = id))).map (fun e => (e.2, blob))) := by
    unfold blobQueueListener
    rw [if_pos ⟨hsrc, by rw [hid]; exact htr, by rw [hdata]; rfl, hep⟩, hid, hdata]
  refine ⟨by rw [hrun], ?_, ?_⟩
  · rw [hrun]
    simp [Option.map_eq_none]
  · rw [hrun]
    apply List.find?_eq_none.mpr
    intro e he
    have := (List.mem_filter.mp he).2
    simpa using this

/-- Witness for C9 at a one-entry queue holding callback 7 under the
answered blobID. -/
theorem blob_queue_no_leak_witness :
    (blobQueueListener [("abc".toList, 7)]
        ⟨blueMarbleSource, none, some ("abc".toList), some [[⟨1, 2, 3, 255⟩]]⟩).2 =
      (([("abc".toList, 7)] : BlobQueue).find? (fun e => decide (e.1 = "abc".toList))).map
        (fun e => (e.2, ([[⟨1, 2, 3, 255⟩]] : Bitmap))) ∧
    ((blobQueueListener [("abc".toList, 7)]
        ⟨blueMarbleSource, none, some ("abc".toList), some [[⟨1, 2, 3, 255⟩]]⟩).2 = none ↔
      ([("abc".toList, 7)] : BlobQueue).find? (fun e => decide (e.1 = "abc".toList)) = none) ∧
    (blobQueueListener [("abc".toList, 7)]
        ⟨blueMarbleSource, none, some ("abc".toList), some [[⟨1, 2, 3, 255⟩]]⟩).1.find?
      (fun e => decide (e.1 = "abc".toList)) = none :=
  blob_queue_no_leak [("abc".toList, 7)]
    ⟨blueMarbleSource, none, some ("abc".toList), some [[⟨1, 2, 3, 255⟩]]⟩
    ("abc".toList) [[⟨1, 2, 3, 255⟩]] rfl rfl (by decide) rfl rfl

/-! ## C10: the last-detected coordinate state is atomic on malformed input.

From apiManager case 'pixel' (lines 84-95): the tile coordinates are the
numeric path segments before the query string, the pixel coordinates are
the x and y query parameters, and a malformed update (previous coordinates
present, new ones empty) reports an error and leaves the stored
coordinates untouched. -/

/-- From apiManager line 85: the numeric path segments before the query
string, as strings. -/
def pixelCoordsTile (endpoint : List Char) : List (List Char) :=
  (splitOnL '/' ((splitOnL '?' endpoint).getD 0 [])).filter jsIsNumericSeg

/-- Models `new URLSearchParams(query).get(key)` for the simple
`k=v&k=v` queries of the pixel endpoint. -/
def searchParamGet (query : List Char) (key : List Char) : Option (List Char) :=
  ((splitOnL '&' query).filterMap (fun kv =>
    match splitOnL '=' kv with
    | k :: v :: _ => if k = key then some v else none
    | _ => none)).head?

/-- From apiManager line 87: `[payloadExtractor.get('x'),
payloadExtractor.get('y')]` — always a two-element array, whose entries may
be null. -/
def pixelQueryCoords (endpoint : List Char) : List (Option (List Char)) :=
  [searchParamGet ((splitOnL '?' endpoint).getD 1 []) ['x'],
   searchParamGet ((splitOnL '?' endpoint).getD 1 []) ['y']]

/-- The stored coordsTilePixel array; entries may be null because the
spread of the pixel coordinate array can inject nulls. -/
abbrev CoordsState := List (Option (List Char))

/-- From apiManager lines 84-95, case 'pixel': guard against malformed
coordinates, otherwise overwrite the stored coordinates with the
concatenation of both arrays.  The boolean reports whether
handleDisplayError fired. -/
def pixelHandler (coordsTilePixel : CoordsState) (endpoint : List Char) :
    CoordsState × Bool :=
  if !coordsTilePixel.isEmpty &&
      ((pixelCoordsTile endpoint).isEmpty || (pixelQueryCoords endpoint).isEmpty) then
    (coordsTilePixel, true)
  else ((pixelCoordsTile endpoint).map some ++ pixelQueryCoords endpoint, false)

/-- C10: when stored coordinates exist and the newly parsed tile or pixel
coordinate list is empty, the handler reports the error and leaves the
stored coordinates exactly as they were; otherwise it overwrites them with
the parsed tile coordinates followed by the two query coordinates.  The
pixel coordinate list always has two entries, so it is never empty. -/
theorem pixel_coords_atomic (st : CoordsState) (endpoint : List Char) :
    (st ≠ [] → (pixelCoordsTile endpoint = [] ∨ pixelQueryCoords endpoint = []) →
      pixelHandler st endpoint = (st, true)) ∧
    (¬(st ≠ [] ∧ (pixelCoordsTile endpoint = [] ∨ pixelQueryCoords endpoint = [])) →
      pixelHandler st endpoint =
        ((pixelCoordsTile endpoint).map some ++ pixelQueryCoords endpoint, false)) ∧
    pixelQueryCoords endpoint ≠ [] := by
  have hguard : (!st.isEmpty &&
      ((pixelCoordsTile endpoint).isEmpty || (pixelQueryCoords endpoint).isEmpty)) = true ↔
      (st ≠ [] ∧ (pixelCoordsTile endpoint = [] ∨ pixelQueryCoords endpoint = [])) := by
    simp [List.isEmpty_iff]
  refine ⟨?_, ?_, by simp [pixelQueryCoords]⟩
  · intro hst hempty
    unfold pixelHandler
    rw [if_pos (hguard.mpr ⟨hst, hempty⟩)]
  · intro hne
    unfold pixelHandler
    rw [if_neg (fun hb => hne (hguard.mp hb))]

/-- Witness for C10: an empty stored state is overwritten by the parsed
coordinates of a concrete pixel endpoint. -/
theorem pixel_coords_atomic_witness :
    pixelHandler [] ("https://backend.wplace.live/s0/pixel/5/7?x=8&y=9".toList) =
      ([some ['5'], some ['7'], some ['8'], some ['9']], false) := by
  have h := (pixel_coords_atomic [] ("https://backend.wplace.live/s0/pixel/5/7?x=8&y=9".toList)).2.1
    (by decide)
  rw [h]
  decide
